import Mathlib

/-!
Shallow embedding of the capability invocation gateway of
`.vas-ai-hospital/ai_api.py`: the capability registry, the dispatch
protocol (`invoke_capability`), the audit emission performed during
dispatch, and the encryption capability handlers.

Python strings are embedded as lists of natural-number codepoints,
Python dicts as ordered association lists (insertion order, in-place
replacement on key collision), Python exceptions as an `Exc` inductive
(the constructors that the gateway code can raise), and the fallible
dispatch boundary as `Except`.  Wall-clock time is embedded by passing
the durations of the three timed phases (registry lookup, handler
execution, audit write) as explicit parameters; `datetime.utcnow()`
readings are the running sums of those durations.
-/

/-- A Python value as it appears in `terms` / `context` mappings of the
gateway: a string (list of codepoints), an integer, or `None`. -/
inductive PyVal where
  | str (s : List Nat)
  | int (n : Int)
  | none
  deriving DecidableEq, Repr

/-- A Python `Dict[str, Any]` restricted to the values the gateway
manipulates: an ordered association list, as in CPython dicts. -/
abbrev PyDict : Type := List (String × PyVal)

/-- Embed a Lean string literal as a Python string value. -/
def pyStr (s : String) : PyVal := PyVal.str (s.data.map Char.toNat)

/-- Python truthiness for the embedded values: `if not x` in the source
branches on this being `false`.  Empty strings, `0` and `None` are
falsy. -/
def PyVal.truthy : PyVal → Bool
  | PyVal.str s => !s.isEmpty
  | PyVal.int n => n != 0
  | PyVal.none => false

/-- Python dict assignment `d[k] = v`: replace in place when the key
exists, append otherwise (CPython insertion-order semantics). -/
def dictSet {α : Type} : List (String × α) → String → α → List (String × α)
  | [], k, v => [(k, v)]
  | (k', v') :: rest, k, v =>
    if k' == k then (k, v) :: rest else (k', v') :: dictSet rest k v

/-- Python dict read `d.get(k)` with no default: `Option.none` when the
key is absent. -/
def dictGet? {α : Type} : List (String × α) → String → Option α
  | [], _ => Option.none
  | (k', v') :: rest, k => if k' == k then some v' else dictGet? rest k

/-- Python dict read `d.get(k, default)` with a default value. -/
def dictGetD {α : Type} (d : List (String × α)) (k : String) (dflt : α) : α :=
  match dictGet? d k with
  | some v => v
  | Option.none => dflt

/-- The exceptions the gateway code can raise: `ValueError` from the
input checks of the handlers, `InvalidToken` from the Fernet cipher,
`TypeError` from awaiting a non-awaitable, `AttributeError` from
`.encode()` on a non-string, `RuntimeError` from the audit handler, and
a generic catch-all for anything a handler or the Redis client throws.
All of these are `Exception` subclasses, so `except Exception` in
`invoke_capability` catches every one of them. -/
inductive Exc where
  | valueError (msg : String)
  | invalidToken
  | typeError (msg : String)
  | attributeError (msg : String)
  | runtimeError (msg : String)
  | generic (msg : String)
  deriving DecidableEq, Repr

/-- Conversion `str(e)` of the embedded exceptions, as used in
`error=str(e)` of the failure envelope. -/
def excStr : Exc → String
  | Exc.valueError m => m
  | Exc.invalidToken => ""
  | Exc.typeError m => m
  | Exc.attributeError m => m
  | Exc.runtimeError m => m
  | Exc.generic m => m

/-- A registered handler.  The gateway file registers `async def`
functions only, but the registry accepts any callable, so a handler is
either a coroutine function or a plain synchronous function; both map a
terms dict to a result dict or a raised exception. -/
inductive Handler where
  | async (f : PyDict → Except Exc PyDict)
  | sync (f : PyDict → Except Exc PyDict)

/-- Evaluation of `await handler(request.terms)` (ai_api.py line 445).
A coroutine
function is awaited and yields its result or raises.  A synchronous
function is first called — which may itself raise — and on a normal
return the `await` of its non-awaitable dict value raises `TypeError`,
per Python semantics of `await`. -/
def awaitCall (h : Handler) (terms : PyDict) : Except Exc PyDict :=
  match h with
  | Handler.async f => f terms
  | Handler.sync f =>
    match f terms with
    | Except.error e => Except.error e
    | Except.ok _ =>
      Except.error (Exc.typeError "object dict can\x27t be used in \x27await\x27 expression")

-- ==========================================
-- ZFP Pillar model (classification tags)
-- ==========================================

/-- The closed enumeration of ZFP pillar tags (`class ZFPPillar`). -/
inductive ZFPPillar where
  | encrypt
  | observe
  | preserve
  | govern
  | empathy
  deriving DecidableEq, Repr

/-- The `.value` string of each pillar tag. -/
def ZFPPillar.value : ZFPPillar → String
  | ZFPPillar.encrypt => "encrypt"
  | ZFPPillar.observe => "observe"
  | ZFPPillar.preserve => "preserve"
  | ZFPPillar.govern => "govern"
  | ZFPPillar.empathy => "empathy"

-- ==========================================
-- Capability registry
-- ==========================================

/-- The metadata record stored per capability by
`CapabilityRegistry.register`. -/
structure CapMetadata where
  pillar : String
  description : String
  registered_at : Nat
  deriving DecidableEq, Repr

/-- The `class CapabilityRegistry`: the `handlers` and `metadata` dicts. -/
structure CapabilityRegistry where
  handlers : List (String × Handler)
  metadata : List (String × CapMetadata)

/-- Constructor `CapabilityRegistry.__init__`: both dicts start empty. -/
def CapabilityRegistry.empty : CapabilityRegistry :=
  { handlers := [], metadata := [] }

/-- Method `CapabilityRegistry.register`: store the handler and the metadata
record under the same name (last writer wins on collision).
`registered_at` is the `datetime.utcnow()` reading, passed in as the
clock value `now`. -/
def CapabilityRegistry.register (r : CapabilityRegistry) (name : String)
    (handler : Handler) (pillar : ZFPPillar) (description : String)
    (now : Nat) : CapabilityRegistry :=
  { handlers := dictSet r.handlers name handler
  , metadata := dictSet r.metadata name
      { pillar := pillar.value, description := description, registered_at := now } }

/-- Method `CapabilityRegistry.get_handler`: `self.handlers.get(name)`. -/
def CapabilityRegistry.get_handler (r : CapabilityRegistry) (name : String) :
    Option Handler :=
  dictGet? r.handlers name

/-- Method `CapabilityRegistry.list_capabilities`: returns the metadata dict. -/
def CapabilityRegistry.list_capabilities (r : CapabilityRegistry) :
    List (String × CapMetadata) :=
  r.metadata

/-- One call to `register`, for reasoning about arbitrary registration
sequences. -/
structure RegCall where
  name : String
  handler : Handler
  pillar : ZFPPillar
  description : String
  now : Nat

/-- Replay a sequence of `register` calls against a starting registry. -/
def registerFold (r : CapabilityRegistry) (calls : List RegCall) :
    CapabilityRegistry :=
  calls.foldl
    (fun acc c => acc.register c.name c.handler c.pillar c.description c.now) r

/-- Replay a sequence of `register` calls against the empty registry
(`CapabilityRegistry.__init__`). -/
def registerAll (calls : List RegCall) : CapabilityRegistry :=
  registerFold CapabilityRegistry.empty calls

-- ==========================================
-- Encryption service (Fernet-backed)
-- ==========================================

/-- Model of the third-party Fernet cipher (`cryptography.fernet`),
which is external to this repository, faithful to its documented
contract: authenticated symmetric encryption keyed by a process-wide
secret, with `decrypt(encrypt(x)) == x` and tamper detection
(`InvalidToken` on any token not produced under the same key).  The
token is an authentication tag followed by the key-shifted payload
codepoints; the UTF-8 encode/decode steps of `EncryptionService`, being
mutually inverse injections, are absorbed into the cipher model. -/
def fernetMac (key : Nat) (pt : List Nat) : Nat :=
  key + pt.sum

/-- Encrypt under `key`: authentication tag, then the shifted payload. -/
def fernetEncrypt (key : Nat) (pt : List Nat) : List Nat :=
  fernetMac key pt :: pt.map (fun b => b + key)

/-- Decrypt under `key`: strip the tag, unshift the payload, and accept
only when the recomputed tag matches; `Option.none` embeds the
`InvalidToken` raise. -/
def fernetDecrypt (key : Nat) (ct : List Nat) : Option (List Nat) :=
  match ct with
  | [] => Option.none
  | t :: body =>
    if body.all (fun b => key ≤ b) then
      let pt := body.map (fun b => b - key)
      if t = fernetMac key pt then some pt else Option.none
    else Option.none

/-- The `class EncryptionService`: a cipher keyed by the process-wide
`ENCRYPTION_KEY`. -/
structure EncryptionService where
  key : Nat

/-- Method `EncryptionService.encrypt`. -/
def EncryptionService.encrypt (s : EncryptionService) (plaintext : List Nat) :
    List Nat :=
  fernetEncrypt s.key plaintext

/-- Method `EncryptionService.decrypt`; `Option.none` is the `InvalidToken`
raise of `self.cipher.decrypt`. -/
def EncryptionService.decrypt (s : EncryptionService) (ciphertext : List Nat) :
    Option (List Nat) :=
  fernetDecrypt s.key ciphertext

/-- Handler `async def handle_data_encrypt(terms)`: reject a missing or falsy
`plaintext` with `ValueError`, encrypt a string, and (faithful to
`plaintext.encode()`) raise `AttributeError` on a truthy non-string. -/
def handle_data_encrypt (svc : EncryptionService) (terms : PyDict) :
    Except Exc PyDict :=
  let plaintext := dictGetD terms "plaintext" PyVal.none
  if plaintext.truthy = false then
    Except.error (Exc.valueError "Missing \x27plaintext\x27 in terms")
  else
    match plaintext with
    | PyVal.str s => Except.ok [("ciphertext", PyVal.str (svc.encrypt s))]
    | _ => Except.error (Exc.attributeError "encode")

/-- Handler `async def handle_data_decrypt(terms)`: reject a missing or falsy
`ciphertext` with `ValueError`, decrypt a string (raising
`InvalidToken` on authentication failure), and raise `AttributeError`
on a truthy non-string. -/
def handle_data_decrypt (svc : EncryptionService) (terms : PyDict) :
    Except Exc PyDict :=
  let ciphertext := dictGetD terms "ciphertext" PyVal.none
  if ciphertext.truthy = false then
    Except.error (Exc.valueError "Missing \x27ciphertext\x27 in terms")
  else
    match ciphertext with
    | PyVal.str c =>
      match svc.decrypt c with
      | some pt => Except.ok [("plaintext", PyVal.str pt)]
      | Option.none => Except.error Exc.invalidToken
    | _ => Except.error (Exc.attributeError "encode")

-- ==========================================
-- Audit and dispatch
-- ==========================================

/-- The audit event record built by `AuditLogger.log_event`
(`details={"terms": request.terms}` in the dispatch path, so details
maps string keys to dicts). -/
structure AuditEvent where
  event_type : String
  actor : PyVal
  resource : String
  action : String
  details : List (String × PyDict)
  deriving DecidableEq, Repr

/-- The `class CapabilityRequest`: the invocation request body. -/
structure CapabilityRequest where
  capability : String
  terms : PyDict
  context : PyDict
  pillar : Option ZFPPillar

/-- The `class CapabilityResponse`: the uniform invocation envelope.
`execution_time_ms` and `timestamp` are clock values in the explicit
time model. -/
structure CapabilityResponse where
  success : Bool
  result : Option PyDict
  error : Option String
  pillar : Option ZFPPillar
  execution_time_ms : Nat
  timestamp : Nat
  deriving DecidableEq, Repr

/-- The `fastapi.HTTPException`, raised out of `invoke_capability` on an
unknown capability and translated by the transport layer. -/
structure HTTPException where
  status_code : Nat
  detail : String
  deriving DecidableEq, Repr

/-- The process environment the dispatcher reads: the global registry,
whether the global `audit_logger` was initialized
(Redis connection established at startup), and whether the Redis writes
inside `log_event` raise (the store-failure behavior; when they raise
with exception `e`, nothing is appended to the audit log). -/
structure Env where
  registry : CapabilityRegistry
  auditAvailable : Bool
  auditFails : Option Exc

/-- The expression `request.context.get("user_id", "SYSTEM")` — the actor recorded in
the audit event of a dispatched invocation (ai_api.py line 451). -/
def auditActor (req : CapabilityRequest) : PyVal :=
  dictGetD req.context "user_id" (pyStr "SYSTEM")

/-- The audit event built at ai_api.py lines 449-455 for a dispatched
invocation. -/
def invokeAuditEvent (req : CapabilityRequest) : AuditEvent :=
  { event_type := "CAPABILITY_INVOKE"
  , actor := auditActor req
  , resource := req.capability
  , action := "EXECUTE"
  , details := [("terms", req.terms)] }

/-- The endpoint `async def invoke_capability(request)` (ai_api.py lines 427-478),
the dispatch boundary.  Returns the raised `HTTPException` or the
response envelope, paired with the list of audit events appended to the
audit log during the call.

Time model: `t0` is the `datetime.utcnow()` reading taken into
`start_time` on entry; `dLookup`, `dHandler` and `dAudit` are the
wall-clock durations of the registry lookup, the handler execution, and
the audit write attempt.  Each `utcnow()` reading is `t0` plus the
durations elapsed so far, and `execution_time_ms` is computed exactly
where the source computes it: after the audit write on the success
path, and in the `except` block on any raise. -/
def invoke_capability (env : Env) (req : CapabilityRequest)
    (t0 dLookup dHandler dAudit : Nat) :
    Except HTTPException CapabilityResponse × List AuditEvent :=
  match env.registry.get_handler req.capability with
  | Option.none =>
    (Except.error
      { status_code := 404
      , detail := "Capability \x27" ++ req.capability ++ "\x27 not found" }, [])
  | some handler =>
    match awaitCall handler req.terms with
    | Except.error e =>
      let execution_time := dLookup + dHandler
      (Except.ok
        { success := false
        , result := Option.none
        , error := some (excStr e)
        , pillar := req.pillar
        , execution_time_ms := execution_time
        , timestamp := t0 + execution_time }, [])
    | Except.ok result =>
      if env.auditAvailable then
        match env.auditFails with
        | some e =>
          let execution_time := dLookup + dHandler + dAudit
          (Except.ok
            { success := false
            , result := Option.none
            , error := some (excStr e)
            , pillar := req.pillar
            , execution_time_ms := execution_time
            , timestamp := t0 + execution_time }, [])
        | Option.none =>
          let execution_time := dLookup + dHandler + dAudit
          (Except.ok
            { success := true
            , result := some result
            , error := Option.none
            , pillar := req.pillar
            , execution_time_ms := execution_time
            , timestamp := t0 + execution_time }, [invokeAuditEvent req])
      else
        let execution_time := dLookup + dHandler
        (Except.ok
          { success := true
          , result := some result
          , error := Option.none
          , pillar := req.pillar
          , execution_time_ms := execution_time
          , timestamp := t0 + execution_time }, [])

/-- The registry holding the two encryption capabilities as registered
at startup (ai_api.py lines 386-387). -/
def dataRegistry (svc : EncryptionService) : CapabilityRegistry :=
  (CapabilityRegistry.empty.register "data:encrypt"
      (Handler.async (handle_data_encrypt svc)) ZFPPillar.encrypt
      "Encrypt sensitive PHI data" 0).register "data:decrypt"
    (Handler.async (handle_data_decrypt svc)) ZFPPillar.encrypt
    "Decrypt sensitive PHI data" 0

/-- The environment after a startup in which the Redis connection was
established and the store is healthy, holding the two encryption
capabilities. -/
def dataEnv (svc : EncryptionService) : Env :=
  { registry := dataRegistry svc, auditAvailable := true, auditFails := Option.none }

/-- An invocation request for `data:encrypt` with the given plaintext. -/
def encReq (x : List Nat) : CapabilityRequest :=
  { capability := "data:encrypt", terms := [("plaintext", PyVal.str x)]
  , context := [], pillar := Option.none }

/-- An invocation request for `data:decrypt` with the given ciphertext. -/
def decReq (c : List Nat) : CapabilityRequest :=
  { capability := "data:decrypt", terms := [("ciphertext", PyVal.str c)]
  , context := [], pillar := Option.none }

-- ==========================================
-- Concrete fixtures for witnesses and counterexamples
-- ==========================================

/-- A registered handler that returns normally. -/
def okHandler : Handler := Handler.async (fun _ => Except.ok [("ok", PyVal.int 1)])

/-- A registered handler that raises `RuntimeError("boom")`. -/
def boomHandler : Handler :=
  Handler.async (fun _ => Except.error (Exc.runtimeError "boom"))

/-- A plain synchronous handler that returns a dict normally. -/
def syncHandler : Handler := Handler.sync (fun _ => Except.ok [("r", PyVal.int 1)])

/-- A registry holding the three fixture capabilities. -/
def fixtureRegistry : CapabilityRegistry :=
  ((CapabilityRegistry.empty.register "test:ok" okHandler ZFPPillar.govern "" 0).register
      "test:boom" boomHandler ZFPPillar.govern "" 0).register
    "test:sync" syncHandler ZFPPillar.govern "" 0

/-- The fixture environment with a healthy audit trail. -/
def okEnv : Env :=
  { registry := fixtureRegistry, auditAvailable := true, auditFails := Option.none }

/-- The fixture environment in which the audit trail was initialized but
the Redis write inside `log_event` raises. -/
def auditFailEnv : Env :=
  { registry := fixtureRegistry, auditAvailable := true
  , auditFails := some (Exc.generic "redis write failed") }

/-- The fixture environment in which the startup Redis connection
failed, so `audit_logger` is `None`. -/
def noAuditEnv : Env :=
  { registry := fixtureRegistry, auditAvailable := false, auditFails := Option.none }

/-- A request for the normally-returning fixture capability. -/
def okReq : CapabilityRequest :=
  { capability := "test:ok", terms := [("k", pyStr "v")], context := []
  , pillar := Option.none }

/-- A request for the raising fixture capability. -/
def boomReq : CapabilityRequest :=
  { capability := "test:boom", terms := [], context := [], pillar := Option.none }

/-- A request for the synchronous fixture capability. -/
def syncReq : CapabilityRequest :=
  { capability := "test:sync", terms := [], context := [], pillar := Option.none }

/-- A request whose context names the caller under the key `actor`, as
the spec describes the contract. -/
def actorReq : CapabilityRequest :=
  { capability := "test:ok", terms := [], context := [("actor", pyStr "alice")]
  , pillar := Option.none }

/-- A request whose context names the caller under the key `user_id`,
the key the source actually reads. -/
def userIdReq : CapabilityRequest :=
  { capability := "test:ok", terms := [], context := [("user_id", pyStr "dr-jones")]
  , pillar := Option.none }

/-- A request for a capability name that no registration ever inserted. -/
def nopeReq : CapabilityRequest :=
  { capability := "nope:nope", terms := [], context := [], pillar := Option.none }

/-- A second unregistered capability name, for the amended-claim
witness. -/
def ghostReq : CapabilityRequest :=
  { capability := "ghost:cap", terms := [], context := [], pillar := Option.none }

-- ==========================================
-- Helper lemmas
-- ==========================================

/-- Setting the same key in two dicts whose key sequences agree keeps
the key sequences equal. -/
theorem dictSet_keys_congr {α β : Type} (d1 : List (String × α))
    (d2 : List (String × β)) (k : String) (v1 : α) (v2 : β)
    (h : d1.map Prod.fst = d2.map Prod.fst) :
    (dictSet d1 k v1).map Prod.fst = (dictSet d2 k v2).map Prod.fst := by
  induction d1 generalizing d2 with
  | nil =>
    have : d2 = [] := by
      cases d2 with
      | nil => rfl
      | cons b t => simp at h
    subst this
    rfl
  | cons a t1 ih =>
    cases d2 with
    | nil => simp at h
    | cons b t2 =>
      simp only [List.map_cons, List.cons.injEq] at h
      obtain ⟨hk, ht⟩ := h
      simp only [dictSet, hk]
      by_cases hcase : (b.1 == k) = true
      · simp only [hcase, if_true, List.map_cons, ht]
      · simp only [hcase, Bool.false_eq_true, if_false, List.map_cons,
          List.cons.injEq]
        exact ⟨trivial, ih t2 ht⟩

/-- A dict lookup succeeds exactly when the key occurs in the dict's key
sequence. -/
theorem dictGet?_isSome_iff {α : Type} (d : List (String × α)) (k : String) :
    (dictGet? d k).isSome = true ↔ k ∈ d.map Prod.fst := by
  induction d with
  | nil => simp [dictGet?]
  | cons a t ih =>
    simp only [dictGet?, List.map_cons, List.mem_cons]
    by_cases hcase : (a.1 == k) = true
    · have heq : a.1 = k := eq_of_beq hcase
      subst heq
      simp [hcase]
    · have hne : a.1 ≠ k := fun hh => hcase (by simp [hh])
      simp [hcase, ih, Ne.symm hne]

/-- Replaying any sequence of `register` calls preserves the agreement
of the handler and metadata key sequences. -/
theorem registerFold_keys (calls : List RegCall) (r : CapabilityRegistry)
    (h : r.handlers.map Prod.fst = r.metadata.map Prod.fst) :
    (registerFold r calls).handlers.map Prod.fst =
      (registerFold r calls).metadata.map Prod.fst := by
  induction calls generalizing r with
  | nil => exact h
  | cons c rest ih =>
    exact ih _ (dictSet_keys_congr _ _ c.name _ _ h)

/-- Every byte of an encrypted body is at least the key shift. -/
theorem fernet_body_all_ge (key : Nat) (pt : List Nat) :
    (pt.map (fun b => b + key)).all (fun b => key ≤ b) = true := by
  simp only [List.all_eq_true, List.mem_map, decide_eq_true_eq]
  rintro b ⟨x, _, rfl⟩
  exact Nat.le_add_left key x

/-- Unshifting an encrypted body recovers the plaintext. -/
theorem fernet_body_unshift (key : Nat) (pt : List Nat) :
    (pt.map (fun b => b + key)).map (fun b => b - key) = pt := by
  induction pt with
  | nil => rfl
  | cons a t ih => simp only [List.map_cons, Nat.add_sub_cancel, ih]

/-- Reshifting an unshifted body recovers it, when every byte is at
least the key shift. -/
theorem fernet_body_reshift (key : Nat) (body : List Nat)
    (hall : body.all (fun b => key ≤ b) = true) :
    (body.map (fun b => b - key)).map (fun b => b + key) = body := by
  induction body with
  | nil => rfl
  | cons a t ih =>
    simp only [List.all_cons, Bool.and_eq_true, decide_eq_true_eq] at hall
    simp only [List.map_cons, Nat.sub_add_cancel hall.1, ih hall.2]

/-- Round-trip law of the cipher model: decrypting an encryption under
the same key recovers the plaintext. -/
theorem fernet_roundtrip (key : Nat) (pt : List Nat) :
    fernetDecrypt key (fernetEncrypt key pt) = some pt := by
  simp only [fernetEncrypt, fernetDecrypt, fernet_body_all_ge, if_true,
    fernet_body_unshift]

/-- Authentication law of the cipher model: any token that decrypts
successfully is exactly the encryption of the recovered plaintext under
the same key — a successful decryption can never return a plaintext
other than the one whose encryption the token is. -/
theorem fernetDecrypt_eq_encrypt (key : Nat) (ct pt : List Nat)
    (h : fernetDecrypt key ct = some pt) : ct = fernetEncrypt key pt := by
  cases ct with
  | nil => simp [fernetDecrypt] at h
  | cons t body =>
    by_cases hall : body.all (fun b => key ≤ b) = true
    · simp only [fernetDecrypt, hall, if_true] at h
      by_cases htag : t = fernetMac key (body.map (fun b => b - key))
      · rw [if_pos htag] at h
        have hpt : body.map (fun b => b - key) = pt := Option.some.inj h
        rw [fernetEncrypt, ← hpt, fernet_body_reshift key body hall, htag]
      · rw [if_neg htag] at h
        exact absurd h (by simp)
    · simp only [fernetDecrypt, hall, Bool.false_eq_true, if_false] at h
      exact absurd h (by simp)

/-- Overwriting one position of a list of naturals changes its sum by
the difference between the new and the old entry. -/
theorem list_sum_set (l : List Nat) (j : Nat) (x : Nat) (h : j < l.length) :
    (l.set j x).sum + l.get ⟨j, h⟩ = l.sum + x := by
  induction l generalizing j with
  | nil => exact absurd h (Nat.not_lt_zero j)
  | cons a t ih =>
    cases j with
    | zero => simp [List.sum_cons]; omega
    | succ j =>
      have hj : j < t.length := Nat.lt_of_succ_lt_succ h
      have := ih j hj
      simp only [List.set, List.sum_cons, List.get_cons_succ]
      omega

/-- A predicate holding on a list and on the inserted value holds on the
list after the insertion. -/
theorem list_all_set_of_all (p : Nat → Bool) (l : List Nat) (j v : Nat)
    (hl : l.all p = true) (hv : p v = true) : (l.set j v).all p = true := by
  simp only [List.all_eq_true] at hl ⊢
  intro b hb
  rcases List.mem_or_eq_of_mem_set hb with hmem | rfl
  · exact hl b hmem
  · exact hv

/-- A value written at a valid index is a member of the updated list. -/
theorem list_mem_set_self (l : List Nat) (j v : Nat) (h : j < l.length) :
    v ∈ l.set j v := by
  induction l generalizing j with
  | nil => exact absurd h (Nat.not_lt_zero j)
  | cons a t ih =>
    cases j with
    | zero => exact List.mem_cons_self v t
    | succ j =>
      have hj : j < t.length := Nat.lt_of_succ_lt_succ h
      exact List.mem_cons_of_mem a (ih j hj)

/-- Tamper-detection law of the cipher model: changing any one position
of a valid token to a different value makes decryption fail. -/
theorem fernet_tamper_detected (key : Nat) (pt : List Nat) (i v : Nat)
    (hi : i < (fernetEncrypt key pt).length)
    (hv : v ≠ (fernetEncrypt key pt).get ⟨i, hi⟩) :
    fernetDecrypt key ((fernetEncrypt key pt).set i v) = Option.none := by
  cases i with
  | zero =>
    have hv0 : v ≠ fernetMac key pt := hv
    show fernetDecrypt key (v :: pt.map (fun b => b + key)) = Option.none
    simp only [fernetDecrypt, fernet_body_all_ge, if_true, fernet_body_unshift]
    exact if_neg hv0
  | succ j =>
    have hj : j < (pt.map (fun b => b + key)).length :=
      Nat.lt_of_succ_lt_succ hi
    have hjpt : j < pt.length := by simpa using hj
    have hget : (fernetEncrypt key pt).get ⟨j + 1, hi⟩ = pt.get ⟨j, hjpt⟩ + key := by
      show (pt.map (fun b => b + key)).get ⟨j, hj⟩ = pt.get ⟨j, hjpt⟩ + key
      simp [List.getElem_map]
    show fernetDecrypt key (fernetMac key pt :: (pt.map (fun b => b + key)).set j v) =
      Option.none
    by_cases hkv : key ≤ v
    · have hall : ((pt.map (fun b => b + key)).set j v).all (fun b => key ≤ b) = true :=
        list_all_set_of_all _ _ j v (fernet_body_all_ge key pt) (by simpa using hkv)
      have hunshift : (((pt.map (fun b => b + key)).set j v).map (fun b => b - key)) =
          pt.set j (v - key) := by
        rw [List.map_set, fernet_body_unshift]
      have hxne : v - key ≠ pt.get ⟨j, hjpt⟩ := by
        intro hx
        apply hv
        rw [hget, ← hx, Nat.sub_add_cancel hkv]
      have htagne : fernetMac key pt ≠ fernetMac key (pt.set j (v - key)) := by
        intro htag
        apply hxne
        have hsum : (pt.set j (v - key)).sum = pt.sum := by
          have h2 : pt.sum = (pt.set j (v - key)).sum := by
            simpa [fernetMac] using htag
          exact h2.symm
        have := list_sum_set pt j (v - key) hjpt
        rw [hsum] at this
        omega
      simp only [fernetDecrypt, hall, if_true, hunshift]
      exact if_neg htagne
    · have hvmem : v ∈ (pt.map (fun b => b + key)).set j v :=
        list_mem_set_self _ j v hj
      by_cases hguard : ((pt.map (fun b => b + key)).set j v).all (fun b => key ≤ b) = true
      · exfalso
        have := (List.all_eq_true.mp hguard) v hvmem
        exact hkv (by simpa using this)
      · simp only [fernetDecrypt, hguard, Bool.false_eq_true, if_false]

/-- Lookup of the registered `data:encrypt` capability. -/
theorem dataRegistry_get_encrypt (svc : EncryptionService) :
    (dataRegistry svc).get_handler "data:encrypt" =
      some (Handler.async (handle_data_encrypt svc)) := rfl

/-- Lookup of the registered `data:decrypt` capability. -/
theorem dataRegistry_get_decrypt (svc : EncryptionService) :
    (dataRegistry svc).get_handler "data:decrypt" =
      some (Handler.async (handle_data_decrypt svc)) := rfl

/-- A non-empty Python string is truthy. -/
theorem str_truthy_of_ne_nil (x : List Nat) (hx : x ≠ []) :
    (PyVal.str x).truthy = true := by
  cases x with
  | nil => exact absurd rfl hx
  | cons a t => rfl

/-- The encrypt handler succeeds on a non-empty plaintext and returns
the ciphertext produced by the cipher. -/
theorem encrypt_handler_ok (svc : EncryptionService) (x : List Nat) (hx : x ≠ []) :
    awaitCall (Handler.async (handle_data_encrypt svc))
        [("plaintext", PyVal.str x)] =
      Except.ok [("ciphertext", PyVal.str (fernetEncrypt svc.key x))] := by
  have htr := str_truthy_of_ne_nil x hx
  simp [awaitCall, handle_data_encrypt, dictGetD, dictGet?, htr,
    EncryptionService.encrypt]

/-- The decrypt handler, fed the ciphertext of `x`, succeeds and returns
`x`. -/
theorem decrypt_handler_ok (svc : EncryptionService) (x : List Nat) :
    awaitCall (Handler.async (handle_data_decrypt svc))
        [("ciphertext", PyVal.str (fernetEncrypt svc.key x))] =
      Except.ok [("plaintext", PyVal.str x)] := by
  have htr : (PyVal.str (fernetEncrypt svc.key x)).truthy = true := rfl
  simp [awaitCall, handle_data_decrypt, dictGetD, dictGet?, htr,
    EncryptionService.decrypt, fernet_roundtrip]

/-- The decrypt handler raises `InvalidToken` on a non-empty ciphertext
that the cipher rejects. -/
theorem decrypt_handler_tamper (svc : EncryptionService) (c : List Nat)
    (hc : c ≠ []) (hdec : fernetDecrypt svc.key c = Option.none) :
    awaitCall (Handler.async (handle_data_decrypt svc))
        [("ciphertext", PyVal.str c)] =
      Except.error Exc.invalidToken := by
  have htr := str_truthy_of_ne_nil c hc
  simp [awaitCall, handle_data_decrypt, dictGetD, dictGet?, htr,
    EncryptionService.decrypt, hdec]

/-- A tampered token is still a non-empty string. -/
theorem set_encrypt_ne_nil (key : Nat) (pt : List Nat) (i v : Nat) :
    (fernetEncrypt key pt).set i v ≠ [] := by
  intro h
  have := congrArg List.length h
  simp [List.length_set, fernetEncrypt] at this

-- ==========================================
-- Claim theorems
-- ==========================================

/-- C1 (amended): audit emission happens only when the handler returns
normally — on a normal return with the audit trail available and the
Redis write succeeding, exactly one AuditEvent with eventType
CAPABILITY_INVOKE, resource equal to the capability name, action
EXECUTE, actor from the context, and details containing the original
terms is emitted before the result is returned; when the handler
raises, no audit event is emitted at all. -/
theorem invoke_audit_success_only (env : Env) (req : CapabilityRequest)
    (t0 dL dH dA : Nat) (hd : Handler)
    (hav : env.auditAvailable = true)
    (hok : env.auditFails = Option.none)
    (hreg : env.registry.get_handler req.capability = some hd) :
    (∀ res, awaitCall hd req.terms = Except.ok res →
      (invoke_capability env req t0 dL dH dA).2 =
        [{ event_type := "CAPABILITY_INVOKE", actor := auditActor req
         , resource := req.capability, action := "EXECUTE"
         , details := [("terms", req.terms)] }]) ∧
    (∀ e, awaitCall hd req.terms = Except.error e →
      (invoke_capability env req t0 dL dH dA).2 = []) := by
  constructor
  · intro res hres
    simp only [invoke_capability, hreg, hres, hav, hok, if_true]
    rfl
  · intro e he
    simp only [invoke_capability, hreg, he]

/-- C1 witness: a concrete successful invocation with a healthy audit
trail emits exactly the one expected event. -/
theorem invoke_audit_success_only_witness :
    (invoke_capability okEnv okReq 0 1 2 3).2 =
      [{ event_type := "CAPABILITY_INVOKE", actor := pyStr "SYSTEM"
       , resource := "test:ok", action := "EXECUTE"
       , details := [("terms", [("k", pyStr "v")])] }] :=
  (invoke_audit_success_only okEnv okReq 0 1 2 3 okHandler rfl rfl rfl).1
    [("ok", PyVal.int 1)] rfl

/-- C1 counterexample: with the audit trail available, invoking a
registered capability whose handler raises emits zero audit events, not
the exactly-one event the claim requires regardless of outcome. -/
theorem invoke_audit_on_failure_cex :
    okEnv.auditAvailable = true ∧
    awaitCall boomHandler boomReq.terms = Except.error (Exc.runtimeError "boom") ∧
    (invoke_capability okEnv boomReq 0 1 2 3).2 = [] ∧
    ((invoke_capability okEnv boomReq 0 1 2 3).2.length = 1 → False) := by
  refine ⟨rfl, rfl, rfl, ?_⟩
  intro h
  exact absurd h (by decide)

/-- C2 (amended): invoking an unregistered capability name raises an
HTTPException with status 404 whose detail message contains that name
out of the dispatch function — the transport layer maps it to a 404
response — instead of returning an InvocationResult, and no audit event
is emitted for the failed lookup. -/
theorem not_found_raises_http404 (env : Env) (req : CapabilityRequest)
    (t0 dL dH dA : Nat)
    (hreg : env.registry.get_handler req.capability = Option.none) :
    invoke_capability env req t0 dL dH dA =
      (Except.error
        { status_code := 404
        , detail := "Capability \x27" ++ req.capability ++ "\x27 not found" }, []) := by
  simp only [invoke_capability, hreg]

/-- C2 witness: a concrete unregistered name raises the 404 exception
with the name in the detail and emits no audit event. -/
theorem not_found_raises_http404_witness :
    invoke_capability okEnv ghostReq 0 1 2 3 =
      (Except.error
        { status_code := 404, detail := "Capability \x27ghost:cap\x27 not found" }, []) :=
  not_found_raises_http404 okEnv ghostReq 0 1 2 3 rfl

/-- C2 counterexample: invoking the unregistered name nope:nope with the
audit trail available does not return any InvocationResult — an
HTTPException is raised instead — and emits zero audit events rather
than one EXECUTE_DENIED event. -/
theorem not_found_cex :
    okEnv.auditAvailable = true ∧
    invoke_capability okEnv nopeReq 0 1 2 3 =
      (Except.error
        { status_code := 404, detail := "Capability \x27nope:nope\x27 not found" }, []) ∧
    (∀ resp : CapabilityResponse,
      (invoke_capability okEnv nopeReq 0 1 2 3).1 ≠ Except.ok resp) ∧
    (invoke_capability okEnv nopeReq 0 1 2 3).2.length = 0 := by
  refine ⟨rfl, rfl, ?_, rfl⟩
  intro resp h
  exact Except.noConfusion h

/-- C3 (amended): a failure raised by the audit write after a successful
handler execution is caught at the dispatch boundary — no fault
propagates out — but it does flip the outcome: the returned
InvocationResult has success false, no result payload, and the audit
exception's message as its error, even though the handler succeeded. -/
theorem audit_failure_flips_success (env : Env) (req : CapabilityRequest)
    (t0 dL dH dA : Nat) (hd : Handler) (res : PyDict) (e : Exc)
    (hav : env.auditAvailable = true)
    (hfail : env.auditFails = some e)
    (hreg : env.registry.get_handler req.capability = some hd)
    (hres : awaitCall hd req.terms = Except.ok res) :
    invoke_capability env req t0 dL dH dA =
      (Except.ok
        { success := false, result := Option.none, error := some (excStr e)
        , pillar := req.pillar, execution_time_ms := dL + dH + dA
        , timestamp := t0 + (dL + dH + dA) }, []) := by
  simp only [invoke_capability, hreg, hres, hav, hfail, if_true]

/-- C3 witness: a concrete successful handler whose audit write raises
yields a failure envelope carrying the audit error. -/
theorem audit_failure_flips_success_witness :
    invoke_capability auditFailEnv okReq 0 1 2 3 =
      (Except.ok
        { success := false, result := Option.none
        , error := some "redis write failed", pillar := Option.none
        , execution_time_ms := 6, timestamp := 6 }, []) :=
  audit_failure_flips_success auditFailEnv okReq 0 1 2 3 okHandler
    [("ok", PyVal.int 1)] (Exc.generic "redis write failed") rfl rfl rfl rfl

/-- C3 counterexample: the handler returns normally, yet the invocation
whose audit write raises comes back with success false — the audit
failure alone flips a successful invocation into a failure result. -/
theorem audit_failure_flips_cex :
    awaitCall okHandler okReq.terms = Except.ok [("ok", PyVal.int 1)] ∧
    (invoke_capability auditFailEnv okReq 0 1 2 3).1 =
      Except.ok
        { success := false, result := Option.none
        , error := some "redis write failed", pillar := Option.none
        , execution_time_ms := 6, timestamp := 6 } ∧
    (∀ resp : CapabilityResponse,
      (invoke_capability auditFailEnv okReq 0 1 2 3).1 = Except.ok resp →
        resp.success = false) := by
  refine ⟨rfl, rfl, ?_⟩
  intro resp h
  cases h
  rfl

/-- C4 (amended): execution_time_ms is the wall-clock delta from
dispatch entry — before the registry lookup — to the point where the
envelope is built; on a successful invocation with an available audit
trail it equals the sum of the lookup, handler and audit durations, not
the handler duration alone. -/
theorem execution_time_spans_dispatch (env : Env) (req : CapabilityRequest)
    (t0 dL dH dA : Nat) (hd : Handler) (res : PyDict)
    (hav : env.auditAvailable = true)
    (hok : env.auditFails = Option.none)
    (hreg : env.registry.get_handler req.capability = some hd)
    (hres : awaitCall hd req.terms = Except.ok res) :
    ∃ resp : CapabilityResponse,
      (invoke_capability env req t0 dL dH dA).1 = Except.ok resp ∧
      resp.success = true ∧
      resp.execution_time_ms = dL + dH + dA := by
  refine ⟨⟨true, some res, Option.none, req.pillar, dL + dH + dA,
    t0 + (dL + dH + dA)⟩, ?_, rfl, rfl⟩
  simp only [invoke_capability, hreg, hres, hav, hok, if_true]

/-- C4 witness: a concrete successful invocation with lookup, handler
and audit durations 5, 1 and 7 reports 13 milliseconds. -/
theorem execution_time_spans_dispatch_witness :
    ∃ resp : CapabilityResponse,
      (invoke_capability okEnv okReq 0 5 1 7).1 = Except.ok resp ∧
      resp.success = true ∧
      resp.execution_time_ms = 5 + 1 + 7 :=
  execution_time_spans_dispatch okEnv okReq 0 5 1 7 okHandler
    [("ok", PyVal.int 1)] rfl rfl rfl rfl

/-- C4 counterexample: with lookup duration 5, handler duration 1 and
audit duration 7, the reported execution_time_ms is 13, not the
handler-only duration 1 the claim requires. -/
theorem execution_time_cex :
    (invoke_capability okEnv okReq 0 5 1 7).1 =
      Except.ok
        { success := true, result := some [("ok", PyVal.int 1)]
        , error := Option.none, pillar := Option.none
        , execution_time_ms := 13, timestamp := 13 } ∧
    (13 : Nat) ≠ 1 := by
  exact ⟨rfl, by decide⟩

/-- C5 (confirmed): any exception raised by a registered handler is
caught at the dispatch boundary and converted into a returned envelope
with success false and error equal to the exception's message; no
handler failure propagates out of invoke_capability as a raised
fault. -/
theorem handler_fault_isolation (env : Env) (req : CapabilityRequest)
    (t0 dL dH dA : Nat) (hd : Handler) (e : Exc)
    (hreg : env.registry.get_handler req.capability = some hd)
    (hfail : awaitCall hd req.terms = Except.error e) :
    invoke_capability env req t0 dL dH dA =
      (Except.ok
        { success := false, result := Option.none, error := some (excStr e)
        , pillar := req.pillar, execution_time_ms := dL + dH
        , timestamp := t0 + (dL + dH) }, []) := by
  simp only [invoke_capability, hreg, hfail]

/-- C5 witness: a concrete raising handler yields the failure envelope
with its message, and nothing is raised out of the dispatch. -/
theorem handler_fault_isolation_witness :
    invoke_capability okEnv boomReq 0 1 2 3 =
      (Except.ok
        { success := false, result := Option.none, error := some "boom"
        , pillar := Option.none, execution_time_ms := 3, timestamp := 3 }, []) :=
  handler_fault_isolation okEnv boomReq 0 1 2 3 boomHandler
    (Exc.runtimeError "boom") rfl rfl

/-- C6 (confirmed): for every non-empty plaintext string, invoking
data:encrypt succeeds with the ciphertext of the process cipher, and
invoking data:decrypt on that ciphertext succeeds and returns exactly
the original plaintext. -/
theorem encrypt_decrypt_roundtrip (svc : EncryptionService) (x : List Nat)
    (t0 dL dH dA : Nat) (hx : x ≠ []) :
    ∃ resp1 resp2 : CapabilityResponse,
      (invoke_capability (dataEnv svc) (encReq x) t0 dL dH dA).1 =
        Except.ok resp1 ∧
      resp1.success = true ∧
      resp1.result = some [("ciphertext", PyVal.str (fernetEncrypt svc.key x))] ∧
      (invoke_capability (dataEnv svc) (decReq (fernetEncrypt svc.key x))
          t0 dL dH dA).1 = Except.ok resp2 ∧
      resp2.success = true ∧
      resp2.result = some [("plaintext", PyVal.str x)] := by
  refine ⟨⟨true, some [("ciphertext", PyVal.str (fernetEncrypt svc.key x))],
      Option.none, Option.none, dL + dH + dA, t0 + (dL + dH + dA)⟩,
    ⟨true, some [("plaintext", PyVal.str x)],
      Option.none, Option.none, dL + dH + dA, t0 + (dL + dH + dA)⟩,
    ?_, rfl, rfl, ?_, rfl, rfl⟩
  · simp only [invoke_capability, dataEnv, encReq, dataRegistry_get_encrypt,
      encrypt_handler_ok svc x hx, if_true]
  · simp only [invoke_capability, dataEnv, decReq, dataRegistry_get_decrypt,
      decrypt_handler_ok svc x, if_true]

/-- C6 witness: the round trip on the concrete plaintext [80, 72, 73]
under key 7, driven through the dispatcher. -/
theorem encrypt_decrypt_roundtrip_witness :
    ∃ resp1 resp2 : CapabilityResponse,
      (invoke_capability (dataEnv ⟨7⟩) (encReq [80, 72, 73]) 0 1 2 3).1 =
        Except.ok resp1 ∧
      resp1.success = true ∧
      resp1.result = some [("ciphertext", PyVal.str (fernetEncrypt 7 [80, 72, 73]))] ∧
      (invoke_capability (dataEnv ⟨7⟩) (decReq (fernetEncrypt 7 [80, 72, 73]))
          0 1 2 3).1 = Except.ok resp2 ∧
      resp2.success = true ∧
      resp2.result = some [("plaintext", PyVal.str [80, 72, 73])] :=
  encrypt_decrypt_roundtrip ⟨7⟩ [80, 72, 73] 0 1 2 3 (by decide)

/-- C7 (confirmed): a ciphertext with any one position changed to a
different value is rejected — invoking data:decrypt on it returns
success false with the InvalidToken error — and any string that
decrypts successfully is exactly the encryption of the returned
plaintext, so a successful decryption never yields a plaintext other
than the one originally encrypted. -/
theorem decrypt_tamper_detection (svc : EncryptionService) (pt : List Nat)
    (i v : Nat) (t0 dL dH dA : Nat)
    (hi : i < (fernetEncrypt svc.key pt).length)
    (hv : v ≠ (fernetEncrypt svc.key pt).get ⟨i, hi⟩) :
    (∃ resp : CapabilityResponse,
      (invoke_capability (dataEnv svc)
          (decReq ((fernetEncrypt svc.key pt).set i v)) t0 dL dH dA).1 =
        Except.ok resp ∧
      resp.success = false ∧
      resp.result = Option.none ∧
      resp.error = some (excStr Exc.invalidToken)) ∧
    (∀ ct p : List Nat, fernetDecrypt svc.key ct = some p →
      ct = fernetEncrypt svc.key p) := by
  constructor
  · have hdec := fernet_tamper_detected svc.key pt i v hi hv
    have hcall := decrypt_handler_tamper svc ((fernetEncrypt svc.key pt).set i v)
      (set_encrypt_ne_nil svc.key pt i v) hdec
    refine ⟨⟨false, Option.none, some (excStr Exc.invalidToken), Option.none,
      dL + dH, t0 + (dL + dH)⟩, ?_, rfl, rfl, rfl⟩
    simp only [invoke_capability, dataEnv, decReq, dataRegistry_get_decrypt, hcall]
  · intro ct p h
    exact fernetDecrypt_eq_encrypt svc.key ct p h

/-- C7 witness: tampering position 1 of the token of [10, 20] under key
5 makes dispatched decryption fail with the InvalidToken error. -/
theorem decrypt_tamper_detection_witness :
    (∃ resp : CapabilityResponse,
      (invoke_capability (dataEnv ⟨5⟩)
          (decReq ((fernetEncrypt 5 [10, 20]).set 1 99)) 0 1 2 3).1 =
        Except.ok resp ∧
      resp.success = false ∧
      resp.result = Option.none ∧
      resp.error = some (excStr Exc.invalidToken)) ∧
    (∀ ct p : List Nat, fernetDecrypt 5 ct = some p → ct = fernetEncrypt 5 p) :=
  decrypt_tamper_detection ⟨5⟩ [10, 20] 1 99 0 1 2 3 (by decide) (by decide)

/-- C8 (amended): the dispatcher transparently supports only
asynchronous handlers — an async handler returning r yields success
true with result r, while a plain synchronous handler returning r
yields success false with a TypeError message, because the dispatcher
awaits the handler's return value as if it were a coroutine. -/
theorem sync_handler_not_supported (env : Env) (req : CapabilityRequest)
    (t0 dL dH dA : Nat) (f : PyDict → Except Exc PyDict) (r : PyDict)
    (hok : env.auditFails = Option.none)
    (hr : f req.terms = Except.ok r) :
    (env.registry.get_handler req.capability = some (Handler.async f) →
      ∃ resp : CapabilityResponse,
        (invoke_capability env req t0 dL dH dA).1 = Except.ok resp ∧
        resp.success = true ∧ resp.result = some r) ∧
    (env.registry.get_handler req.capability = some (Handler.sync f) →
      ∃ resp : CapabilityResponse,
        (invoke_capability env req t0 dL dH dA).1 = Except.ok resp ∧
        resp.success = false ∧ resp.result = Option.none ∧
        resp.error =
          some "object dict can\x27t be used in \x27await\x27 expression") := by
  constructor
  · intro hreg
    have hcall : awaitCall (Handler.async f) req.terms = Except.ok r := by
      simp only [awaitCall, hr]
    cases hav : env.auditAvailable
    · refine ⟨⟨true, some r, Option.none, req.pillar, dL + dH, t0 + (dL + dH)⟩,
        ?_, rfl, rfl⟩
      simp only [invoke_capability, hreg, hcall, hav]
      rfl
    · refine ⟨⟨true, some r, Option.none, req.pillar, dL + dH + dA,
        t0 + (dL + dH + dA)⟩, ?_, rfl, rfl⟩
      simp only [invoke_capability, hreg, hcall, hav, hok, if_true]
  · intro hreg
    have hcall : awaitCall (Handler.sync f) req.terms =
        Except.error
          (Exc.typeError "object dict can\x27t be used in \x27await\x27 expression") := by
      simp only [awaitCall, hr]
    refine ⟨⟨false, Option.none,
        some "object dict can\x27t be used in \x27await\x27 expression",
        req.pillar, dL + dH, t0 + (dL + dH)⟩, ?_, rfl, rfl, rfl⟩
    simp only [invoke_capability, hreg, hcall]
    rfl

/-- C8 witness: a concrete async handler dispatches to success true with
its result, while a concrete sync handler dispatches to success false
with the TypeError message. -/
theorem sync_handler_not_supported_witness :
    (∃ resp : CapabilityResponse,
      (invoke_capability okEnv okReq 0 1 2 3).1 = Except.ok resp ∧
      resp.success = true ∧ resp.result = some [("ok", PyVal.int 1)]) ∧
    (∃ resp : CapabilityResponse,
      (invoke_capability okEnv syncReq 0 1 2 3).1 = Except.ok resp ∧
      resp.success = false ∧ resp.result = Option.none ∧
      resp.error =
        some "object dict can\x27t be used in \x27await\x27 expression") :=
  ⟨(sync_handler_not_supported okEnv okReq 0 1 2 3
      (fun _ => Except.ok [("ok", PyVal.int 1)]) [("ok", PyVal.int 1)] rfl rfl).1 rfl,
   (sync_handler_not_supported okEnv syncReq 0 1 2 3
      (fun _ => Except.ok [("r", PyVal.int 1)]) [("r", PyVal.int 1)] rfl rfl).2 rfl⟩

/-- C8 counterexample: a registered plain synchronous handler that
returns a dict normally dispatches to success false with a TypeError
message, not to the success true with its return value that the claim
requires. -/
theorem sync_handler_cex :
    fixtureRegistry.get_handler "test:sync" = some syncHandler ∧
    (invoke_capability okEnv syncReq 0 1 2 3).1 =
      Except.ok
        { success := false, result := Option.none
        , error := some "object dict can\x27t be used in \x27await\x27 expression"
        , pillar := Option.none, execution_time_ms := 3, timestamp := 3 } ∧
    (∀ resp : CapabilityResponse,
      (invoke_capability okEnv syncReq 0 1 2 3).1 = Except.ok resp →
        resp.success = false) := by
  refine ⟨rfl, rfl, ?_⟩
  intro resp h
  cases h
  rfl

/-- C9 (amended): for every dispatched invocation that emits an
AuditEvent, the event's actor equals the value under the user_id key of
the request context when present and SYSTEM when absent; the actor key
of the context is not consulted. -/
theorem audit_actor_from_user_id (env : Env) (req : CapabilityRequest)
    (t0 dL dH dA : Nat) (hd : Handler) (res : PyDict)
    (hav : env.auditAvailable = true)
    (hok : env.auditFails = Option.none)
    (hreg : env.registry.get_handler req.capability = some hd)
    (hres : awaitCall hd req.terms = Except.ok res) :
    (invoke_capability env req t0 dL dH dA).2 = [invokeAuditEvent req] ∧
    ∀ ev ∈ (invoke_capability env req t0 dL dH dA).2,
      ev.actor = dictGetD req.context "user_id" (pyStr "SYSTEM") := by
  have hev : (invoke_capability env req t0 dL dH dA).2 = [invokeAuditEvent req] := by
    simp only [invoke_capability, hreg, hres, hav, hok, if_true]
  refine ⟨hev, ?_⟩
  intro ev hmem
  rw [hev] at hmem
  simp only [List.mem_singleton] at hmem
  subst hmem
  rfl

/-- C9 witness: a concrete context carrying user_id dr-jones produces an
audit event whose actor is that value. -/
theorem audit_actor_from_user_id_witness :
    (invoke_capability okEnv userIdReq 0 1 2 3).2 = [invokeAuditEvent userIdReq] ∧
    ∀ ev ∈ (invoke_capability okEnv userIdReq 0 1 2 3).2,
      ev.actor = dictGetD userIdReq.context "user_id" (pyStr "SYSTEM") :=
  audit_actor_from_user_id okEnv userIdReq 0 1 2 3 okHandler
    [("ok", PyVal.int 1)] rfl rfl rfl rfl

/-- C9 counterexample: a context whose actor key is alice and which has
no user_id key produces an audit event whose actor is SYSTEM, not
alice as the claim requires. -/
theorem audit_actor_cex :
    dictGet? actorReq.context "actor" = some (pyStr "alice") ∧
    (invoke_capability okEnv actorReq 0 1 2 3).2 =
      [{ event_type := "CAPABILITY_INVOKE", actor := pyStr "SYSTEM"
       , resource := "test:ok", action := "EXECUTE"
       , details := [("terms", [])] }] ∧
    pyStr "SYSTEM" ≠ pyStr "alice" := by
  refine ⟨rfl, rfl, ?_⟩
  decide

/-- C10 (confirmed): after every sequence of register calls starting
from the empty registry, the handlers and metadata dicts have the same
key sequence, get_handler succeeds exactly on the names appearing in
list_capabilities, and the handler count equals the number of metadata
entries. -/
theorem registry_maps_consistent (calls : List RegCall) :
    ((registerAll calls).handlers.map Prod.fst =
      (registerAll calls).metadata.map Prod.fst) ∧
    (∀ name, ((registerAll calls).get_handler name).isSome = true ↔
      name ∈ ((registerAll calls).list_capabilities.map Prod.fst)) ∧
    (registerAll calls).handlers.length = (registerAll calls).metadata.length := by
  have hkeys : (registerAll calls).handlers.map Prod.fst =
      (registerAll calls).metadata.map Prod.fst :=
    registerFold_keys calls CapabilityRegistry.empty rfl
  refine ⟨hkeys, ?_, ?_⟩
  · intro name
    rw [CapabilityRegistry.get_handler, dictGet?_isSome_iff, hkeys]
    exact Iff.rfl
  · have := congrArg List.length hkeys
    simpa using this
